import Mathlib

/-!
Shallow embedding of geckoboard/oauth2-cli (main.go, http.go) and proofs
about its configuration merging, callback handling, nonce checking and
random-string generation.  Machine integers are modelled as Nat/Int;
bytes are Nat values < 256.
-/

namespace OAuth2CLI

/-! ### Standard base64 encoding (encoding/base64 StdEncoding, as used by randString)

`sextets` turns a byte list into the 6-bit groups Go's encoder emits
(`b0>>2`, `(b0&3)<<4 | b1>>4`, `(b1&15)<<2 | b2>>6`, `b2&63`), handling
the 1- and 2-byte tails exactly as Go does; `padCount` is the number of
trailing `=` characters. -/

def sextets : List Nat → List Nat
  | [] => []
  | [a] => [a / 4, (a % 4) * 16]
  | [a, b] => [a / 4, (a % 4) * 16 + b / 16, (b % 16) * 4]
  | a :: b :: c :: t =>
      a / 4 :: ((a % 4) * 16 + b / 16) :: ((b % 16) * 4 + c / 64) :: (c % 64) :: sextets t

def padCount : List Nat → Nat
  | [] => 0
  | [_] => 2
  | [_, _] => 1
  | _ :: _ :: _ :: t => padCount t

/-- The 64 characters of the standard base64 alphabet, in order. -/
def stdAlphabet : List Char :=
  ['A','B','C','D','E','F','G','H','I','J','K','L','M','N','O','P',
   'Q','R','S','T','U','V','W','X','Y','Z',
   'a','b','c','d','e','f','g','h','i','j','k','l','m','n','o','p',
   'q','r','s','t','u','v','w','x','y','z',
   '0','1','2','3','4','5','6','7','8','9','+','/']

def stdChar (i : Nat) : Char := stdAlphabet.getD i '?'

/-- Go's `base64.StdEncoding.EncodeToString` on a byte list. -/
def base64StdEncode (l : List Nat) : String :=
  String.mk ((sextets l).map stdChar ++ List.replicate (padCount l) '=')

/-- Partial inverse of `sextets`, used to prove the encoding injective. -/
def unsextets : List Nat → List Nat
  | s1 :: s2 :: s3 :: s4 :: t =>
      (s1 * 4 + s2 / 16) :: ((s2 % 16) * 16 + s3 / 4) :: ((s3 % 4) * 64 + s4) :: unsextets t
  | [s1, s2] => [s1 * 4 + s2 / 16]
  | [s1, s2, s3] => [s1 * 4 + s2 / 16, (s2 % 16) * 16 + s3 / 4]
  | _ => []

/-- Length of the sextet list as a function of the byte count. -/
def sexLen : Nat → Nat
  | 0 => 0
  | 1 => 2
  | 2 => 3
  | n + 3 => 4 + sexLen n

/-- Number of padding characters as a function of the byte count. -/
def padLen : Nat → Nat
  | 0 => 0
  | 1 => 2
  | 2 => 1
  | n + 3 => padLen n

theorem sextets_length : ∀ l : List Nat, (sextets l).length = sexLen l.length
  | [] => rfl
  | [_] => rfl
  | [_, _] => rfl
  | a :: b :: c :: t => by
      simp only [sextets, List.length_cons, sexLen]
      rw [sextets_length t]
      omega

theorem padCount_eq : ∀ l : List Nat, padCount l = padLen l.length
  | [] => rfl
  | [_] => rfl
  | [_, _] => rfl
  | a :: b :: c :: t => by
      simp only [padCount, List.length_cons, padLen]
      exact padCount_eq t

theorem unsextets_sextets : ∀ l : List Nat, (∀ x ∈ l, x < 256) →
    unsextets (sextets l) = l
  | [], _ => rfl
  | [a], h => by
      simp only [sextets, unsextets, List.cons.injEq, and_true]
      omega
  | [a, b], h => by
      have hb : b < 256 := h b (by simp)
      simp only [sextets, unsextets, List.cons.injEq, and_true]
      constructor <;> omega
  | a :: b :: c :: t, h => by
      have hb : b < 256 := h b (by simp)
      have hc : c < 256 := h c (by simp)
      have ih := unsextets_sextets t (fun x hx => h x (by simp [hx]))
      simp only [sextets, unsextets, ih, List.cons.injEq, and_true]
      refine ⟨by omega, by omega, by omega⟩

theorem sextets_lt64 : ∀ l : List Nat, (∀ x ∈ l, x < 256) →
    ∀ y ∈ sextets l, y < 64
  | [], _ => by simp [sextets]
  | [a], h => by
      have ha : a < 256 := h a (by simp)
      simp only [sextets, List.mem_cons, List.not_mem_nil, or_false]
      rintro y (rfl | rfl) <;> omega
  | [a, b], h => by
      have ha : a < 256 := h a (by simp)
      have hb : b < 256 := h b (by simp)
      simp only [sextets, List.mem_cons, List.not_mem_nil, or_false]
      rintro y (rfl | rfl | rfl) <;> omega
  | a :: b :: c :: t, h => by
      have ha : a < 256 := h a (by simp)
      have hb : b < 256 := h b (by simp)
      have hc : c < 256 := h c (by simp)
      have ih := sextets_lt64 t (fun x hx => h x (by simp [hx]))
      simp only [sextets, List.mem_cons]
      rintro y (rfl | rfl | rfl | rfl | hy)
      · omega
      · omega
      · omega
      · omega
      · exact ih y hy

theorem stdChar_inj_lt : ∀ a < 64, ∀ b < 64, stdChar a = stdChar b → a = b := by
  decide

theorem map_stdChar_inj : ∀ s1 s2 : List Nat, (∀ x ∈ s1, x < 64) → (∀ x ∈ s2, x < 64) →
    s1.map stdChar = s2.map stdChar → s1 = s2
  | [], [], _, _, _ => rfl
  | [], _ :: _, _, _, h => by simp at h
  | _ :: _, [], _, _, h => by simp at h
  | a :: t1, b :: t2, h1, h2, h => by
      simp only [List.map_cons, List.cons.injEq] at h
      have hab : a = b :=
        stdChar_inj_lt a (h1 a (by simp)) b (h2 b (by simp)) h.1
      have ht : t1 = t2 :=
        map_stdChar_inj t1 t2 (fun x hx => h1 x (by simp [hx]))
          (fun x hx => h2 x (by simp [hx])) h.2
      rw [hab, ht]

/-- Base64 encoding is injective on byte lists of equal length. -/
theorem base64StdEncode_inj (b1 b2 : List Nat)
    (h1 : ∀ x ∈ b1, x < 256) (h2 : ∀ x ∈ b2, x < 256)
    (hlen : b1.length = b2.length) (henc : base64StdEncode b1 = base64StdEncode b2) :
    b1 = b2 := by
  unfold base64StdEncode at henc
  have henc' := congrArg String.data henc
  simp only [String.data] at henc'
  have hmaplen : ((sextets b1).map stdChar).length = ((sextets b2).map stdChar).length := by
    simp [sextets_length, hlen]
  have := List.append_inj henc' hmaplen
  have hmap : (sextets b1).map stdChar = (sextets b2).map stdChar := this.1
  have hsex : sextets b1 = sextets b2 :=
    map_stdChar_inj _ _ (sextets_lt64 b1 h1) (sextets_lt64 b2 h2) hmap
  calc b1 = unsextets (sextets b1) := (unsextets_sextets b1 h1).symm
    _ = unsextets (sextets b2) := by rw [hsex]
    _ = b2 := unsextets_sextets b2 h2

theorem base64StdEncode_length (l : List Nat) :
    (base64StdEncode l).length = sexLen l.length + padLen l.length := by
  unfold base64StdEncode
  simp [String.length, sextets_length, padCount_eq]

/-! ### randString (main.go lines 195-199)

```go
func randString() string {
    buf := make([]byte, 32)
    rand.Read(buf)
    return base64.StdEncoding.EncodeToString(buf)
}
```

The read from the OS random source is modelled as a `RandRead` record:
the 32-byte buffer it left behind and the error value it returned, which
the source discards. -/

structure RandRead where
  buf : List Nat
  err : Option String

def randString (r : RandRead) : String := base64StdEncode r.buf

/-! ### URL-safe unpadded base64 decoding (base64.RawURLEncoding.DecodeString)

Used by `checkNonce` on the ID token's payload segment.  Go's default
(non-strict) decoder rejects characters outside the alphabet and inputs
whose length is 1 mod 4, and ignores surplus trailing bits. -/

def urlAlphabet : List Char :=
  ['A','B','C','D','E','F','G','H','I','J','K','L','M','N','O','P',
   'Q','R','S','T','U','V','W','X','Y','Z',
   'a','b','c','d','e','f','g','h','i','j','k','l','m','n','o','p',
   'q','r','s','t','u','v','w','x','y','z',
   '0','1','2','3','4','5','6','7','8','9','-','_']

def urlIndexAux (c : Char) : List Char → Nat → Option Nat
  | [], _ => none
  | a :: t, i => if a = c then some i else urlIndexAux c t (i + 1)

def urlIndex (c : Char) : Option Nat := urlIndexAux c urlAlphabet 0

def decodeQuads : List Nat → Option (List Nat)
  | [] => some []
  | [_] => none
  | [a, b] => some [a * 4 + b / 16]
  | [a, b, c] => some [a * 4 + b / 16, (b % 16) * 16 + c / 4]
  | a :: b :: c :: d :: t =>
      (decodeQuads t).map
        (fun r => (a * 4 + b / 16) :: ((b % 16) * 16 + c / 4) :: ((c % 4) * 64 + d) :: r)

def rawURLDecode (s : List Char) : Option (List Nat) :=
  (s.mapM urlIndex).bind decodeQuads

/-! ### strings.SplitN with separator "." -/

/-- Characters before the first occurrence of `sep`, and the rest after it
(`none` when `sep` does not occur). -/
def splitFirst (sep : Char) : List Char → List Char × Option (List Char)
  | [] => ([], none)
  | c :: t =>
      if c = sep then ([], some t)
      else
        let p := splitFirst sep t
        (c :: p.1, p.2)

/-- Go's `strings.SplitN(s, ".", n)` for `n ≥ 1` (the source uses `n = 3`). -/
def splitNDot : Nat → List Char → List (List Char)
  | 0, _ => []
  | 1, s => [s]
  | n + 2, s =>
      match splitFirst '.' s with
      | (_, none) => [s]
      | (pre, some rest) => pre :: splitNDot (n + 1) rest

/-! ### checkNonce (main.go lines 172-193)

```go
func checkNonce(nonce string, token *oauth2.Token) error {
    idToken, ok := token.Extra("id_token").(string)
    if !ok { return fmt.Errorf("missing OIDC id_token") }
    splitToken := strings.SplitN(idToken, ".", 3)
    log.Printf("%q", splitToken[1])
    payload, err := base64.RawURLEncoding.DecodeString(splitToken[1])
    if err != nil { return fmt.Errorf("id_token payload decode: %w", err) }
    var decodeToken struct { Nonce string }
    if err := json.Unmarshal(payload, &decodeToken); err != nil {
        return fmt.Errorf("id_token payload decode: %w", err)
    }
    if decodeToken.Nonce != nonce { return fmt.Errorf("%q != %q", ...) }
    return nil
}
```

The oauth2 token is modelled by the one extra field the program reads:
`token.Extra("id_token")` as a string when that extra is present and is a
string.  `json.Unmarshal` into `struct{ Nonce string }` belongs to an
out-of-scope subsystem and is passed in as a function from the decoded
payload bytes to the parsed `Nonce` field (`none` = unmarshal error).
`splitToken[1]` in the source is an unchecked index: when the ID token
contains no dot, `SplitN` yields a single-element slice and the access
panics; that outcome is the `indexPanic` constructor. -/

structure Token where
  idToken : Option String

inductive NonceCheck where
  | ok
  | missingIDToken
  | indexPanic
  | decodeErr
  | unmarshalErr
  | mismatch (found expected : String)
deriving DecidableEq, Repr

def checkNonce (jsonNonce : List Nat → Option String) (nonce : String) (token : Token) :
    NonceCheck :=
  match token.idToken with
  | none => .missingIDToken
  | some idTok =>
    let splitToken := splitNDot 3 idTok.data
    match splitToken.get? 1 with
    | none => .indexPanic
    | some seg =>
      match rawURLDecode seg with
      | none => .decodeErr
      | some payload =>
        match jsonNonce payload with
        | none => .unmarshalErr
        | some n => if n ≠ nonce then .mismatch n nonce else .ok

/-! ### Configuration (main.go lines 20-74, 201-205)

The `config` struct, its built-in defaults, the JSON defaults file
(`/etc/oauth2-cli.json`, decoded into the pre-filled struct so that only
keys present in the file overwrite), and the flag set.

Flag semantics: `flag.StringVar(&conf.X, name, dflt, usage)` stores
`dflt` into the variable at registration time and then each occurrence
of the flag on the command line overwrites it, so the final value is the
last occurrence when the flag is supplied at all.  All flags are modelled
as the list of their command-line occurrences in order (empty list =
flag absent).  Registration order matters for one default: the source
registers `-token` with default `conf.AuthURL` (main.go line 61), the
value `conf` holds after the file merge. -/

structure Config where
  Interface : String
  Port : Int
  Callback : String
  ClientID : String
  ClientSecret : String
  AuthURL : String
  TokenURL : String
  CodeParam : String
  Scope : String
  OIDCNonce : Bool
  Verbose : Bool
deriving DecidableEq, Repr

/-- The struct literal at the top of `loadConfig` (main.go lines 37-42). -/
def initialConfig : Config :=
  { Interface := "127.0.0.1"
    Port := 8081
    Callback := "/oauth/callback"
    ClientID := ""
    ClientSecret := ""
    AuthURL := ""
    TokenURL := ""
    CodeParam := "code"
    Scope := ""
    OIDCNonce := false
    Verbose := false }

/-- The JSON defaults file's contents: each key either absent or present
with a value (keys as in the struct tags). -/
structure FileConfig where
  interface : Option String := none
  port : Option Int := none
  callback : Option String := none
  client_id : Option String := none
  client_secret : Option String := none
  auth_url : Option String := none
  token_url : Option String := none
  code_param : Option String := none
  scopes : Option String := none
  nonce : Option Bool := none
  verbose : Option Bool := none
deriving DecidableEq, Repr

/-- `json.NewDecoder(defaultsFile).Decode(&conf)`: keys present in the
file overwrite the pre-filled struct, absent keys leave it unchanged. -/
def mergeFile (c : Config) (p : FileConfig) : Config :=
  { Interface := p.interface.getD c.Interface
    Port := p.port.getD c.Port
    Callback := p.callback.getD c.Callback
    ClientID := p.client_id.getD c.ClientID
    ClientSecret := p.client_secret.getD c.ClientSecret
    AuthURL := p.auth_url.getD c.AuthURL
    TokenURL := p.token_url.getD c.TokenURL
    CodeParam := p.code_param.getD c.CodeParam
    Scope := p.scopes.getD c.Scope
    OIDCNonce := p.nonce.getD c.OIDCNonce
    Verbose := p.verbose.getD c.Verbose }

/-- Command-line flag occurrences, in order; `[]` means the flag was not
supplied. -/
structure Flags where
  interface : List String := []
  port : List Int := []
  callback : List String := []
  id : List String := []
  secret : List String := []
  auth : List String := []
  token : List String := []
  code : List String := []
  scope : List String := []
  oidcNonce : List Bool := []
  verbose : List Bool := []
deriving DecidableEq, Repr

/-- `flag.Parse` for one registered flag: the registered default, then
each occurrence overwrites, leaving the last. -/
def flagValue {α : Type} (dflt : α) (occurrences : List α) : α :=
  occurrences.foldl (fun _ v => v) dflt

/-- The flag registrations and `flag.Parse` (main.go lines 55-66).
Every default is the post-file-merge value of the same field, except
`-token`, whose registered default is `conf.AuthURL` (main.go line 61). -/
def applyFlags (c : Config) (f : Flags) : Config :=
  { Interface := flagValue c.Interface f.interface
    Port := flagValue c.Port f.port
    Callback := flagValue c.Callback f.callback
    ClientID := flagValue c.ClientID f.id
    ClientSecret := flagValue c.ClientSecret f.secret
    AuthURL := flagValue c.AuthURL f.auth
    TokenURL := flagValue c.AuthURL f.token
    CodeParam := flagValue c.CodeParam f.code
    Scope := flagValue c.Scope f.scope
    OIDCNonce := flagValue c.OIDCNonce f.oidcNonce
    Verbose := flagValue c.Verbose f.verbose }

/-- What `os.Open` + JSON decode of the defaults file can come to. -/
inductive FileRes where
  | absent
  | openErr
  | parseErr
  | parsed (p : FileConfig)
deriving DecidableEq, Repr

inductive LoadResult where
  | fatal (msg : String)
  | ok (c : Config)
deriving DecidableEq, Repr

def isFatal : LoadResult → Bool
  | .fatal _ => true
  | .ok _ => false

/-- The fully merged configuration: built-in defaults, then the file when
it parsed, then the flags. -/
def mergedConfig (file : FileRes) (flags : Flags) : Config :=
  applyFlags
    (match file with
     | .parsed p => mergeFile initialConfig p
     | _ => initialConfig)
    flags

/-- The four `required` checks at the end of `loadConfig` (main.go lines
68-71, 201-205), in source order. -/
def finishLoad (m : Config) : LoadResult :=
  if m.AuthURL = "" then .fatal "-auth is a required flag"
  else if m.TokenURL = "" then .fatal "-token is a required flag"
  else if m.ClientID = "" then .fatal "-id is a required flag"
  else if m.ClientSecret = "" then .fatal "-secret is a required flag"
  else .ok m

/-- `loadConfig` (main.go lines 36-74). -/
def loadConfig (file : FileRes) (flags : Flags) : LoadResult :=
  match file with
  | .openErr => .fatal "failed to open \"/etc/oauth2-cli.json\""
  | .parseErr => .fatal "failed to parse \"/etc/oauth2-cli.json\""
  | .absent => finishLoad (applyFlags initialConfig flags)
  | .parsed p => finishLoad (applyFlags (mergeFile initialConfig p) flags)

/-! ### Scope delivery (main.go lines 90-99 and the oauth2 library)

`main` builds `oauth2.Config{ Scopes: []string{conf.Scope}, ... }`; the
oauth2 library's `AuthCodeURL` sets the authorization request's `scope`
parameter to `strings.Join(c.Scopes, " ")`. -/

def scopesOf (c : Config) : List String := [c.Scope]

def scopeParamOf (c : Config) : String := String.intercalate " " (scopesOf c)

/-! ### URLs (net/url, subset) and the redirect derivation (main.go lines 79-88)

`GoURL` keeps the `url.URL` fields the program touches (no user info,
opaque part or escaping).  `parseURL` models `url.Parse` on the grammar
`[scheme:][//host][path][?query][#fragment]`: the fragment is cut at the
first `#`, a scheme is recognised when an initial run of scheme
characters (first alphabetic) ends in `:` and is lower-cased, the query
is cut at the first `?`, and a leading `//` introduces the host, which
extends to the next `/`.  `render` models `url.URL.String` on the same
subset. -/

structure GoURL where
  Scheme : String
  Host : String
  Path : String
  RawQuery : String
  Fragment : String
deriving DecidableEq, Repr

def isSchemeChar (c : Char) : Bool :=
  c.isAlpha || c.isDigit || c = '+' || c = '-' || c = '.'

/-- Scan for `scheme:`; returns the scheme characters and the rest, or
`none` when the input has no scheme. -/
def findScheme : List Char → List Char → Option (List Char × List Char)
  | _, [] => none
  | acc, c :: t =>
      if c = ':' then (if acc.isEmpty then none else some (acc.reverse, t))
      else if (if acc.isEmpty then c.isAlpha else isSchemeChar c) then
        findScheme (c :: acc) t
      else none

def parseURL (s : String) : GoURL :=
  let (beforeFrag, fragPart) :=
    match splitFirst '#' s.data with
    | (a, none) => (a, [])
    | (a, some b) => (a, b)
  let (schemeChars, rest1) :=
    match findScheme [] beforeFrag with
    | none => ([], beforeFrag)
    | some (sc, r) => (sc, r)
  let (rest2, queryPart) :=
    match splitFirst '?' rest1 with
    | (a, none) => (a, [])
    | (a, some b) => (a, b)
  let (hostChars, pathChars) :=
    match rest2 with
    | '/' :: '/' :: afterSlashes =>
        let p := splitFirst '/' afterSlashes
        match p.2 with
        | none => (afterSlashes, [])
        | some r => (p.1, '/' :: r)
    | other => ([], other)
  { Scheme := String.mk (schemeChars.map Char.toLower)
    Host := String.mk hostChars
    Path := String.mk pathChars
    RawQuery := String.mk queryPart
    Fragment := String.mk fragPart }

/-- `url.URL.String` on the modelled subset. -/
def render (u : GoURL) : String :=
  (if u.Scheme = "" then "" else u.Scheme ++ ":")
    ++ (if u.Scheme = "" ∧ u.Host = "" then ""
        else if u.Host = "" ∧ u.Path = "" then ""
        else "//" ++ u.Host)
    ++ u.Path
    ++ (if u.RawQuery = "" then "" else "?" ++ u.RawQuery)
    ++ (if u.Fragment = "" then "" else "#" ++ u.Fragment)

/-- main.go lines 83-88: fill in a missing scheme with `http` and a
missing host with `interface:port` (`fmt.Sprintf("%s:%d", ...)`). -/
def deriveRedirect (u : GoURL) (iface : String) (port : Int) : GoURL :=
  let u1 := if u.Scheme = "" then { u with Scheme := "http" } else u
  if u1.Host = "" then { u1 with Host := iface ++ ":" ++ toString port } else u1

/-! ### The callback handler (main.go lines 116-154) and shutdown (lines 166-169)

The handler closure is modelled as a function from its environment (the
generated state and nonce, the configured code parameter, the token
exchanger, the payload JSON reader and the token serializer — the last
three are out-of-scope collaborators passed in as functions) and the
incoming request's query to the ordered list of externally visible
actions it performs.  `wg.Done()` is deferred in the source, so a `done`
event closes every path, including the panic path (deferred calls run
during unwinding, and `net/http` recovers handler panics).  `http.Error`
writes the given status; a successful `w.Write` leaves the implicit 200. -/

inductive Event where
  | exchangeCalled (code : String)
  | httpError (status : Nat) (msg : String)
  | wroteBody (status : Nat) (body : String)
  | panicked
  | done
  | shutdown
  | fatalExit (msg : String)
deriving DecidableEq, Repr

structure Env where
  state : String
  nonce : String
  codeParam : String
  exchange : String → Except String Token
  jsonNonce : List Nat → Option String
  marshal : Token → Except String String

/-- The request's parsed query: key-value pairs in order.
`url.Values.Get` returns the first value for the key, or `""`. -/
abbrev Request := List (String × String)

def queryGet (r : Request) (k : String) : String :=
  match r.find? (fun p => p.1 == k) with
  | some p => p.2
  | none => ""

def renderNonceErr : NonceCheck → String
  | .missingIDToken => "missing OIDC id_token"
  | .mismatch found expected => "\"" ++ found ++ "\" != \"" ++ expected ++ "\""
  | _ => "id_token payload decode"

/-- The handler body (everything before the deferred `wg.Done`). -/
def bodyEvents (env : Env) (r : Request) : List Event :=
  if queryGet r "state" ≠ env.state then
    [.httpError 401 ("Invalid state: " ++ queryGet r "state")]
  else
    let code := queryGet r env.codeParam
    match env.exchange code with
    | .error e => [.exchangeCalled code, .httpError 503 ("Exchange error: " ++ e)]
    | .ok token =>
      let rest :=
        match env.marshal token with
        | .error e => [Event.httpError 503 ("Token parse error: " ++ e)]
        | .ok tokenJSON => [Event.wroteBody 200 tokenJSON]
      if env.nonce ≠ "" then
        match checkNonce env.jsonNonce env.nonce token with
        | .ok => .exchangeCalled code :: rest
        | .indexPanic => [.exchangeCalled code, .panicked]
        | e => [.exchangeCalled code,
                .httpError 401 ("OIDC nonce error: " ++ renderNonceErr e)]
      else .exchangeCalled code :: rest

/-- The full handler: body, then the deferred `wg.Done()`. -/
def handleCallback (env : Env) (r : Request) : List Event :=
  bodyEvents env r ++ [.done]

/-- main.go lines 166-169: `wg.Wait()` released by the single handled
request, then `server.Shutdown(ctx)`. -/
def callbackAndShutdown (env : Env) (r : Request) : List Event :=
  handleCallback env r ++ [.shutdown]

/-- The process from configuration loading onward: a fatal configuration
error terminates before the flow starts; otherwise the state (and, in
OIDC mode, the nonce) is generated from the random reads and the single
callback is handled, then the server shut down (main.go lines 76-170). -/
def runMain (file : FileRes) (flags : Flags)
    (ex : String → Except String Token) (jn : List Nat → Option String)
    (ms : Token → Except String String)
    (stateRead nonceRead : RandRead) (r : Request) : List Event :=
  match loadConfig file flags with
  | .fatal m => [.fatalExit m]
  | .ok conf =>
      let nonce := if conf.OIDCNonce then randString nonceRead else ""
      callbackAndShutdown
        { state := randString stateRead
          nonce := nonce
          codeParam := conf.CodeParam
          exchange := ex
          jsonNonce := jn
          marshal := ms } r

/-! ## Helper lemmas -/

theorem randString_length (r : RandRead) (h : r.buf.length = 32) :
    (randString r).length = 44 := by
  unfold randString
  rw [base64StdEncode_length, h]
  decide

theorem isFatal_exists (lr : LoadResult) (h : isFatal lr = true) :
    ∃ m, lr = LoadResult.fatal m := by
  cases lr with
  | fatal m => exact ⟨m, rfl⟩
  | ok c => simp [isFatal] at h

theorem finishLoad_fatal_iff (m : Config) :
    (isFatal (finishLoad m) = true ↔
      m.AuthURL = "" ∨ m.TokenURL = "" ∨ m.ClientID = "" ∨ m.ClientSecret = "")
    ∧ (isFatal (finishLoad m) = false → finishLoad m = LoadResult.ok m) := by
  unfold finishLoad
  split_ifs with h1 h2 h3 h4 <;> simp_all [isFatal]

/-! ## Claims -/

/-- Claim C1 (the code violates it): with a defaults file supplying both
`auth_url` and `token_url` and no `-token` flag, the resolved token URL
is the file's `auth_url`, not the file's `token_url` — the `-token` flag
is registered with default `conf.AuthURL` (main.go line 61), so a
file-supplied token URL is replaced by the value of a different field. -/
theorem tokenURL_takes_authURL_not_file_value :
    loadConfig
        (FileRes.parsed
          { auth_url := some "https://a.example", token_url := some "https://t.example",
            client_id := some "cid", client_secret := some "sec" }) {} =
      LoadResult.ok
        (mergedConfig
          (FileRes.parsed
            { auth_url := some "https://a.example", token_url := some "https://t.example",
              client_id := some "cid", client_secret := some "sec" }) {})
    ∧ (mergedConfig
        (FileRes.parsed
          { auth_url := some "https://a.example", token_url := some "https://t.example",
            client_id := some "cid", client_secret := some "sec" }) {}).TokenURL =
        "https://a.example"
    ∧ ("https://a.example" : String) ≠ "https://t.example" := by
  decide

/-- Claim C2 (the code violates it): `-scope read -scope write` resolves
to `"write"` only — `flag.StringVar` keeps the last occurrence — so the
authorization request's scope parameter carries just `write`; the
comma-separated form is preserved verbatim. -/
theorem repeated_scope_flag_keeps_last_only :
    scopeParamOf (mergedConfig FileRes.absent { scope := ["read", "write"] }) = "write"
    ∧ scopeParamOf (mergedConfig FileRes.absent { scope := ["read,write"] }) = "read,write" := by
  decide

/-- Claim C4 (the code violates it): on an ID token containing no dot,
`strings.SplitN` yields a one-element slice and the unchecked
`splitToken[1]` access panics (modelled as `indexPanic`) instead of
returning a payload-decode error. -/
theorem dotless_idToken_panics :
    checkNonce (fun _ => none) "nonce-value" ⟨some "x"⟩ = NonceCheck.indexPanic
    ∧ checkNonce (fun _ => none) "nonce-value" ⟨some "x"⟩ ≠ NonceCheck.decodeErr
    ∧ checkNonce (fun _ => none) "nonce-value" ⟨some "x"⟩ ≠ NonceCheck.unmarshalErr := by
  decide

/-- Claim C7: the state/nonce strings come from encoding exactly 32
random bytes and the encoding is injective — two reads whose 32-byte
buffers differ produce different strings, whatever the discarded error
values were. -/
theorem randString_injective_on_32_bytes (r1 r2 : RandRead)
    (h1 : ∀ x ∈ r1.buf, x < 256) (h2 : ∀ x ∈ r2.buf, x < 256)
    (hl1 : r1.buf.length = 32) (hl2 : r2.buf.length = 32)
    (hne : r1.buf ≠ r2.buf) :
    randString r1 ≠ randString r2 := by
  intro heq
  exact hne (base64StdEncode_inj r1.buf r2.buf h1 h2 (by rw [hl1, hl2]) heq)

/-- Claim C7 witness: two concrete differing 32-byte buffers yield
different strings. -/
theorem randString_injective_on_32_bytes_w :
    randString ⟨List.replicate 32 0, none⟩ ≠ randString ⟨1 :: List.replicate 31 0, none⟩ :=
  randString_injective_on_32_bytes ⟨List.replicate 32 0, none⟩ ⟨1 :: List.replicate 31 0, none⟩
    (by decide) (by decide) (by decide) (by decide) (by decide)

/-- Claim C10: randString discards the random source's error — the
result is unconditionally the standard-base64 encoding of the 32-byte
buffer, a 44-character string, identical whatever the read error was. -/
theorem randString_ignores_read_error (r : RandRead) (h : r.buf.length = 32) :
    randString r = base64StdEncode r.buf
    ∧ (randString r).length = 44
    ∧ ∀ e : Option String, randString ⟨r.buf, e⟩ = randString r := by
  exact ⟨rfl, randString_length r h, fun e => rfl⟩

/-- Claim C10 witness: a failed read (non-nil error) still yields the
44-character encoding of the buffer. -/
theorem randString_ignores_read_error_w :
    randString ⟨List.replicate 32 0, some "read failed"⟩ =
        base64StdEncode (List.replicate 32 0)
    ∧ (randString ⟨List.replicate 32 0, some "read failed"⟩).length = 44
    ∧ ∀ e : Option String,
        randString ⟨List.replicate 32 0, e⟩ =
          randString ⟨List.replicate 32 0, some "read failed"⟩ :=
  randString_ignores_read_error ⟨List.replicate 32 0, some "read failed"⟩ (by decide)

/-- Claim C3: a callback whose `state` query parameter differs from the
generated state gets exactly a 401 response and the deferred completion
signal; the token exchanger is never invoked. -/
theorem state_mismatch_rejected_without_exchange (env : Env) (r : Request)
    (h : queryGet r "state" ≠ env.state) :
    handleCallback env r =
      [Event.httpError 401 ("Invalid state: " ++ queryGet r "state"), Event.done]
    ∧ ∀ code, Event.exchangeCalled code ∉ handleCallback env r := by
  have hb : bodyEvents env r =
      [Event.httpError 401 ("Invalid state: " ++ queryGet r "state")] := by
    unfold bodyEvents
    rw [if_pos h]
  refine ⟨?_, ?_⟩
  · unfold handleCallback
    rw [hb]
    rfl
  · intro code
    unfold handleCallback
    rw [hb]
    simp

/-- Claim C3 witness: a concrete request with the wrong state. -/
theorem state_mismatch_rejected_without_exchange_w :
    handleCallback
        { state := "expected-state", nonce := "", codeParam := "code",
          exchange := fun _ => Except.ok ⟨none⟩, jsonNonce := fun _ => none,
          marshal := fun _ => Except.ok "\x7b\x7d" }
        [("state", "evil")] =
      [Event.httpError 401 ("Invalid state: " ++ queryGet [("state", "evil")] "state"),
       Event.done]
    ∧ ∀ code, Event.exchangeCalled code ∉
        handleCallback
          { state := "expected-state", nonce := "", codeParam := "code",
            exchange := fun _ => Except.ok ⟨none⟩, jsonNonce := fun _ => none,
            marshal := fun _ => Except.ok "\x7b\x7d" }
          [("state", "evil")] :=
  state_mismatch_rejected_without_exchange
    { state := "expected-state", nonce := "", codeParam := "code",
      exchange := fun _ => Except.ok ⟨none⟩, jsonNonce := fun _ => none,
      marshal := fun _ => Except.ok "\x7b\x7d" }
    [("state", "evil")] (by decide)

/-- Claim C5: the concrete example derives
`http://127.0.0.1:8081/oauth/callback`, and in general the derivation
only fills an empty scheme with `http` and an empty host with
`interface:port`, preserving every other component. -/
theorem redirect_url_derivation :
    render (deriveRedirect (parseURL "/oauth/callback") "127.0.0.1" 8081) =
      "http://127.0.0.1:8081/oauth/callback"
    ∧ ∀ (u : GoURL) (iface : String) (port : Int),
        (deriveRedirect u iface port).Scheme =
            (if u.Scheme = "" then "http" else u.Scheme)
        ∧ (deriveRedirect u iface port).Host =
            (if u.Host = "" then iface ++ ":" ++ toString port else u.Host)
        ∧ (deriveRedirect u iface port).Path = u.Path
        ∧ (deriveRedirect u iface port).RawQuery = u.RawQuery
        ∧ (deriveRedirect u iface port).Fragment = u.Fragment := by
  refine ⟨by decide, ?_⟩
  intro u iface port
  unfold deriveRedirect
  by_cases h1 : u.Scheme = "" <;> by_cases h2 : u.Host = "" <;> simp [h1, h2]

/-- Claim C8: configuration loading is fatal exactly when the defaults
file exists but is unreadable or malformed, or one of the four required
fields is empty after merging; otherwise it returns the merged
configuration; and a fatal load stops the process before any of the
flow's actions happen. -/
theorem loadConfig_fatal_conditions (file : FileRes) (flags : Flags) :
    (isFatal (loadConfig file flags) = true ↔
      file = FileRes.openErr ∨ file = FileRes.parseErr ∨
      (mergedConfig file flags).AuthURL = "" ∨ (mergedConfig file flags).TokenURL = "" ∨
      (mergedConfig file flags).ClientID = "" ∨ (mergedConfig file flags).ClientSecret = "")
    ∧ (isFatal (loadConfig file flags) = false →
        loadConfig file flags = LoadResult.ok (mergedConfig file flags))
    ∧ (isFatal (loadConfig file flags) = true →
        ∀ ex jn ms sRead nRead r, ∃ m,
          runMain file flags ex jn ms sRead nRead r = [Event.fatalExit m]) := by
  refine ⟨?_, ?_, ?_⟩
  · cases file with
    | openErr => simp [loadConfig, isFatal]
    | parseErr => simp [loadConfig, isFatal]
    | absent =>
        simpa [loadConfig, mergedConfig] using
          (finishLoad_fatal_iff (applyFlags initialConfig flags)).1
    | parsed p =>
        simpa [loadConfig, mergedConfig] using
          (finishLoad_fatal_iff (applyFlags (mergeFile initialConfig p) flags)).1
  · cases file with
    | openErr => intro h; simp [loadConfig, isFatal] at h
    | parseErr => intro h; simp [loadConfig, isFatal] at h
    | absent =>
        intro h
        simpa [loadConfig, mergedConfig] using
          (finishLoad_fatal_iff (applyFlags initialConfig flags)).2
            (by simpa [loadConfig] using h)
    | parsed p =>
        intro h
        simpa [loadConfig, mergedConfig] using
          (finishLoad_fatal_iff (applyFlags (mergeFile initialConfig p) flags)).2
            (by simpa [loadConfig] using h)
  · intro hf ex jn ms sRead nRead r
    obtain ⟨m, hm⟩ := isFatal_exists _ hf
    exact ⟨m, by simp [runMain, hm]⟩

/-- Claim C8 witness: a well-formed flag set loads successfully, and an
unreadable defaults file makes the whole run exit fatally with no flow
events. -/
theorem loadConfig_fatal_conditions_w :
    loadConfig FileRes.absent
        { auth := ["https://auth.example"], token := ["https://token.example"],
          id := ["cid"], secret := ["csec"] } =
      LoadResult.ok
        (mergedConfig FileRes.absent
          { auth := ["https://auth.example"], token := ["https://token.example"],
            id := ["cid"], secret := ["csec"] })
    ∧ ∃ m, runMain FileRes.openErr {} (fun _ => Except.error "e") (fun _ => none)
        (fun _ => Except.ok "ok") ⟨List.replicate 32 0, none⟩ ⟨List.replicate 32 0, none⟩
        [] = [Event.fatalExit m] := by
  refine ⟨?_, ?_⟩
  · exact (loadConfig_fatal_conditions FileRes.absent
      { auth := ["https://auth.example"], token := ["https://token.example"],
        id := ["cid"], secret := ["csec"] }).2.1 (by decide)
  · exact (loadConfig_fatal_conditions FileRes.openErr {}).2.2 (by decide) _ _ _ _ _ _

/-- Every handler path emits only response/exchange/panic events before
the deferred completion signal. -/
theorem done_not_in_bodyEvents (env : Env) (r : Request) :
    Event.done ∉ bodyEvents env r := by
  unfold bodyEvents
  by_cases h : queryGet r "state" ≠ env.state
  · simp [h]
  · rw [if_neg h]
    cases hx : env.exchange (queryGet r env.codeParam) with
    | error e => simp [hx]
    | ok token =>
      by_cases hn : env.nonce = ""
      · cases hms : env.marshal token <;> simp [hx, hn, hms]
      · cases hc : checkNonce env.jsonNonce env.nonce token <;>
          cases hms : env.marshal token <;> simp [hx, hn, hms, hc]

/-- Claim C9: the handler always ends by signalling completion exactly
once — the completion event closes every path — so the wait is released
and shutdown follows it, whatever the outcome was. -/
theorem handler_signals_done_once_then_shutdown (env : Env) (r : Request) :
    ∃ pre : List Event,
      handleCallback env r = pre ++ [Event.done]
      ∧ Event.done ∉ pre
      ∧ callbackAndShutdown env r = pre ++ [Event.done, Event.shutdown] := by
  refine ⟨bodyEvents env r, rfl, done_not_in_bodyEvents env r, ?_⟩
  unfold callbackAndShutdown handleCallback
  simp

/-- Claim C6: with OIDC nonce mode on (the nonce is a generated
32-byte-read string, hence nonempty), a successful exchange whose ID
token payload decodes to a nonce different from the generated one gets
exactly a 401 response — no token JSON event is ever written. -/
theorem oidc_nonce_mismatch_rejected (env : Env) (r : Request) (tok : Token)
    (nonceRead : RandRead) (t : String) (seg : List Char) (payload : List Nat) (n : String)
    (hgen : env.nonce = randString nonceRead) (hlen : nonceRead.buf.length = 32)
    (hs : queryGet r "state" = env.state)
    (hx : env.exchange (queryGet r env.codeParam) = Except.ok tok)
    (ht : tok.idToken = some t)
    (hseg : (splitNDot 3 t.data).get? 1 = some seg)
    (hdec : rawURLDecode seg = some payload)
    (hjson : env.jsonNonce payload = some n)
    (hne : n ≠ env.nonce) :
    handleCallback env r =
      [Event.exchangeCalled (queryGet r env.codeParam),
       Event.httpError 401
         ("OIDC nonce error: " ++ renderNonceErr (NonceCheck.mismatch n env.nonce)),
       Event.done]
    ∧ ∀ st body, Event.wroteBody st body ∉ handleCallback env r := by
  have hnonce : ¬env.nonce = "" := by
    intro h0
    have := randString_length nonceRead hlen
    rw [← hgen, h0] at this
    simp at this
  have hcheck : checkNonce env.jsonNonce env.nonce tok = NonceCheck.mismatch n env.nonce := by
    unfold checkNonce
    simp only [ht, hseg, hdec, hjson]
    rw [if_pos hne]
  have hbody : bodyEvents env r =
      [Event.exchangeCalled (queryGet r env.codeParam),
       Event.httpError 401
         ("OIDC nonce error: " ++ renderNonceErr (NonceCheck.mismatch n env.nonce))] := by
    unfold bodyEvents
    rw [if_neg (by simp [hs])]
    simp [hx, hnonce, hcheck]
  refine ⟨?_, ?_⟩
  · unfold handleCallback
    rw [hbody]
    rfl
  · intro st body
    unfold handleCallback
    rw [hbody]
    simp

/-- Claim C6 witness: a concrete OIDC-mode run whose ID token payload
carries a different nonce. -/
theorem oidc_nonce_mismatch_rejected_w :
    handleCallback
        { state := "S", nonce := randString ⟨List.replicate 32 0, none⟩, codeParam := "code",
          exchange := fun _ => Except.ok ⟨some "h.AAAA.s"⟩,
          jsonNonce := fun _ => some "evil", marshal := fun _ => Except.ok "ok" }
        [("state", "S"), ("code", "c")] =
      [Event.exchangeCalled
         (queryGet [("state", "S"), ("code", "c")]
           (Env.codeParam
             { state := "S", nonce := randString ⟨List.replicate 32 0, none⟩,
               codeParam := "code", exchange := fun _ => Except.ok ⟨some "h.AAAA.s"⟩,
               jsonNonce := fun _ => some "evil", marshal := fun _ => Except.ok "ok" })),
       Event.httpError 401
         ("OIDC nonce error: " ++
           renderNonceErr
             (NonceCheck.mismatch "evil" (randString ⟨List.replicate 32 0, none⟩))),
       Event.done]
    ∧ ∀ st body, Event.wroteBody st body ∉
        handleCallback
          { state := "S", nonce := randString ⟨List.replicate 32 0, none⟩, codeParam := "code",
            exchange := fun _ => Except.ok ⟨some "h.AAAA.s"⟩,
            jsonNonce := fun _ => some "evil", marshal := fun _ => Except.ok "ok" }
          [("state", "S"), ("code", "c")] :=
  oidc_nonce_mismatch_rejected
    { state := "S", nonce := randString ⟨List.replicate 32 0, none⟩, codeParam := "code",
      exchange := fun _ => Except.ok ⟨some "h.AAAA.s"⟩,
      jsonNonce := fun _ => some "evil", marshal := fun _ => Except.ok "ok" }
    [("state", "S"), ("code", "c")] ⟨some "h.AAAA.s"⟩ ⟨List.replicate 32 0, none⟩
    "h.AAAA.s" "AAAA".data [0, 0, 0] "evil"
    rfl (by decide) (by decide) rfl rfl (by decide) (by decide) rfl (by decide)

end OAuth2CLI
